import Mathlib

/-!
Verification of the hotplug callback/driver registry (src/libusb/hotplug.c).

The code is shallowly embedded: each C function becomes a Lean function over
an explicit context value.  Callback invocations, and the acquisition and
release of the registry mutex, are recorded in an event trace, so that
temporal claims about lock discipline and callback invocation can be stated
as properties of the trace returned by each operation.
-/

namespace Hotplug

/-- A USB device.  The `id` field models the `struct libusb_device *` pointer
identity (two nodes in a device list are the same device iff the pointers are
equal); the remaining fields model the `device_descriptor` fields read by
`usbi_hotplug_match_driver`. -/
structure Device where
  id : Nat
  idVendor : Nat
  idProduct : Nat
  bDeviceClass : Nat
deriving DecidableEq

/-- A hotplug driver (the `libusb_hotplug` struct of the public header, which
is not part of src/).  Fields `vid`, `pid`, `dev_class`, `flags`, `connect`
and `disconnect` are exactly the fields hotplug.c reads; `id` models the
driver pointer identity (`it->driver != driver` compares pointers).  The
`connect` callback returns an `int`; the `disconnect` callback returns
nothing, so only its invocations are recorded (in the trace).  `events` is
modelled from the spec: the Filter's event mask, which hotplug.c never
reads. -/
structure Driver where
  id : Nat
  vid : Int
  pid : Int
  dev_class : Int
  flags : Nat
  events : Nat
  connect : Device → Int

/-- Modelled from the spec: the wildcard sentinel, an out-of-band value that
"must lie outside both ranges" (16-bit ids, 8-bit class); the public header
defines it as -1. -/
def LIBUSB_HOTPLUG_MATCH_ANY : Int := -1

/-- Modelled from the spec: the enumerate-on-register flag bit of the public
header. -/
def LIBUSB_HOTPLUG_ENUMERATE : Nat := 1

/-- Modelled from the spec: the two hotplug event kinds of the public header.
`usbi_hotplug_match` receives the event as a plain integer and compares it
against these two constants, so the event is embedded as `Int`. -/
def LIBUSB_HOTPLUG_EVENT_DEVICE_ARRIVED : Int := 1

/-- Modelled from the spec: the device-left event kind. -/
def LIBUSB_HOTPLUG_EVENT_DEVICE_LEFT : Int := 2

/-- Status codes of the public header (not part of src/). -/
def LIBUSB_SUCCESS : Int := 0

/-- Invalid-parameter error status. -/
def LIBUSB_ERROR_INVALID_PARAM : Int := -2

/-- Out-of-memory error status. -/
def LIBUSB_ERROR_NO_MEM : Int := -11

/-- Hotplug-not-supported error status. -/
def LIBUSB_ERROR_NOT_SUPPORTED : Int := -12

/-- Observable events of one operation: registry-mutex acquisition and
release, and the two user callback invocations (identified by the driver
pointer id and the device passed to the callback). -/
inductive TraceEvent where
  | lock : TraceEvent
  | unlock : TraceEvent
  | connect (driverId : Nat) (dev : Device) : TraceEvent
  | disconnect (driverId : Nat) (dev : Device) : TraceEvent
deriving DecidableEq

/-- One node of the per-context driver list (`struct hotplug_list`): a driver
plus the list of devices currently associated with it (`device_list`, with
`list_add` prepending).  `nodeId` models the node's address. -/
structure HotplugList where
  nodeId : Nat
  driver : Driver
  device_list : List Device

/-- The relevant slice of `struct libusb_context`: the hotplug driver list
(protected by `hotplug_drivers_lock`, whose acquisition/release is traced),
the current device list `usb_devs` maintained by the enumeration backend,
and a counter supplying fresh node ids.  `hasHotplug` models the result of
`libusb_has_capability(LIBUSB_CAP_HAS_HOTPLUG)`. -/
structure Context where
  hasHotplug : Bool
  usb_devs : List Device
  hotplug_drivers : List HotplugList
  nextNodeId : Nat

/-- `usbi_hotplug_match_driver`: tests the driver's filter against the
device; on the vid/pid/class tests failing returns 1 without any callback,
otherwise fires the `connect` callback and returns its result. -/
def usbi_hotplug_match_driver (driver : Driver) (dev : Device) :
    Int × List TraceEvent :=
  if driver.vid != LIBUSB_HOTPLUG_MATCH_ANY && driver.vid != (dev.idVendor : Int) then
    (1, [])
  else if driver.pid != LIBUSB_HOTPLUG_MATCH_ANY && driver.pid != (dev.idProduct : Int) then
    (1, [])
  else if driver.dev_class != LIBUSB_HOTPLUG_MATCH_ANY && driver.dev_class != (dev.bDeviceClass : Int) then
    (1, [])
  else
    (driver.connect dev, [TraceEvent.connect driver.id dev])

/-- `usbi_hotplug_connect_device`: allocates a device node and `list_add`s it
(prepend) to the entry's device list. -/
def usbi_hotplug_connect_device (device : Device) (it : HotplugList) : HotplugList :=
  { it with device_list := device :: it.device_list }

/-- The `list_for_each_entry_safe` loop body of `usbi_hotplug_disconnect_all`:
for every device node, invoke the driver's `disconnect` callback, unlink and
free the node. -/
def disconnectAllLoop (driverId : Nat) : List Device → List TraceEvent
  | [] => []
  | dv :: rest => TraceEvent.disconnect driverId dv :: disconnectAllLoop driverId rest

/-- `usbi_hotplug_disconnect_all`: empties the entry's device list, invoking
`disconnect` once per device node, in list order. -/
def usbi_hotplug_disconnect_all (it : HotplugList) : HotplugList × List TraceEvent :=
  ({ it with device_list := [] }, disconnectAllLoop it.driver.id it.device_list)

/-- The loop of `usbi_hotplug_disconnect_device`: every node whose device
equals the given device is removed, with a `disconnect` callback fired per
removed node (the callback receives the `device` argument). -/
def disconnectDeviceLoop (driverId : Nat) (device : Device) :
    List Device → List Device × List TraceEvent
  | [] => ([], [])
  | dv :: rest =>
    let r := disconnectDeviceLoop driverId device rest
    if dv = device then
      (r.1, TraceEvent.disconnect driverId device :: r.2)
    else
      (dv :: r.1, r.2)

/-- `usbi_hotplug_disconnect_device`: removes the given device from the
entry's device list (all of its nodes), firing `disconnect` per removal. -/
def usbi_hotplug_disconnect_device (device : Device) (it : HotplugList) :
    HotplugList × List TraceEvent :=
  let r := disconnectDeviceLoop it.driver.id device it.device_list
  ({ it with device_list := r.1 }, r.2)

/-- The `list_for_each_entry_safe` loop of `usbi_hotplug_match`: for each
entry, on ARRIVED run the driver filter and, when it reports success (0),
record the device in the entry's device list; on LEFT disconnect the device
from the entry; on any other event value do nothing. -/
def matchLoop (dev : Device) (event : Int) :
    List HotplugList → List HotplugList × List TraceEvent
  | [] => ([], [])
  | it :: rest =>
    let step :=
      if event = LIBUSB_HOTPLUG_EVENT_DEVICE_ARRIVED then
        let r := usbi_hotplug_match_driver it.driver dev
        if r.1 = 0 then (usbi_hotplug_connect_device dev it, r.2) else (it, r.2)
      else if event = LIBUSB_HOTPLUG_EVENT_DEVICE_LEFT then
        usbi_hotplug_disconnect_device dev it
      else
        (it, [])
    let rests := matchLoop dev event rest
    (step.1 :: rests.1, step.2 ++ rests.2)

/-- `usbi_hotplug_match`: takes the registry lock, walks the driver list
dispatching the event to every entry, and releases the lock. -/
def usbi_hotplug_match (ctx : Context) (dev : Device) (event : Int) :
    Context × List TraceEvent :=
  let r := matchLoop dev event ctx.hotplug_drivers
  ({ ctx with hotplug_drivers := r.1 },
   TraceEvent.lock :: (r.2 ++ [TraceEvent.unlock]))

/-- The sanity check of `libusb_hotplug_register` on one filter field:
`SENTINEL != field && (~mask & field)` — written with `Int.land`/`Int.not`
exactly as the C expression `(~0xffff & driver->vid)` (the C `int` is
embedded as `Int`; `Int.land` agrees with two's-complement `&` on every value
an `int` can hold). -/
def fieldOutOfRange (mask : Int) (field : Int) : Bool :=
  field != LIBUSB_HOTPLUG_MATCH_ANY && Int.land (Int.not mask) field != 0

/-- The full "check for sane values" condition of `libusb_hotplug_register`
(excluding the null-driver test, which is handled at the call site). -/
def invalidDriver (driver : Driver) : Bool :=
  fieldOutOfRange 0xffff driver.vid ||
  fieldOutOfRange 0xffff driver.pid ||
  fieldOutOfRange 0xff driver.dev_class

/-- The `list_for_each_entry` replay loop of `libusb_hotplug_register`: every
device of `ctx->usb_devs` is pushed through `usbi_hotplug_match` as an
ARRIVED event. -/
def enumLoop : List Device → Context → Context × List TraceEvent
  | [], ctx => (ctx, [])
  | dv :: rest, ctx =>
    let r := usbi_hotplug_match ctx dv LIBUSB_HOTPLUG_EVENT_DEVICE_ARRIVED
    let rs := enumLoop rest r.1
    (rs.1, r.2 ++ rs.2)

/-- `libusb_hotplug_register`: checks the hotplug capability, validates the
driver pointer and its filter fields, allocates a list node (`mallocOk`
models whether `malloc` succeeds), inserts it into the driver list under the
lock, and, when the ENUMERATE flag is set, replays all current devices as
ARRIVED events.  Returns the status, the new context and the trace. -/
def libusb_hotplug_register (ctx : Context) (driver : Option Driver)
    (mallocOk : Bool) : Int × Context × List TraceEvent :=
  if !ctx.hasHotplug then
    (LIBUSB_ERROR_NOT_SUPPORTED, ctx, [])
  else
    match driver with
    | none => (LIBUSB_ERROR_INVALID_PARAM, ctx, [])
    | some d =>
      if invalidDriver d then
        (LIBUSB_ERROR_INVALID_PARAM, ctx, [])
      else if !mallocOk then
        (LIBUSB_ERROR_NO_MEM, ctx, [])
      else
        let node : HotplugList := ⟨ctx.nextNodeId, d, []⟩
        let ctx₁ : Context :=
          { ctx with hotplug_drivers := node :: ctx.hotplug_drivers,
                     nextNodeId := ctx.nextNodeId + 1 }
        if d.flags &&& LIBUSB_HOTPLUG_ENUMERATE != 0 then
          let r := enumLoop ctx.usb_devs ctx₁
          (LIBUSB_SUCCESS, r.1,
           TraceEvent.lock :: TraceEvent.unlock :: r.2)
        else
          (LIBUSB_SUCCESS, ctx₁, [TraceEvent.lock, TraceEvent.unlock])

/-- The `list_for_each_entry_safe` loop of `libusb_hotplug_deregister`:
entries whose driver pointer differs are kept; for a matching entry,
`disconnect_all` fires the disconnect callback for each associated device,
then the entry is unlinked and freed. -/
def deregLoop (driver : Driver) :
    List HotplugList → List HotplugList × List TraceEvent
  | [] => ([], [])
  | it :: rest =>
    let rests := deregLoop driver rest
    if it.driver.id != driver.id then
      (it :: rests.1, rests.2)
    else
      let r := usbi_hotplug_disconnect_all it
      (rests.1, r.2 ++ rests.2)

/-- `libusb_hotplug_deregister`: returns silently when hotplug is
unsupported; otherwise, under the lock, disconnects and frees every entry
whose driver pointer matches. -/
def libusb_hotplug_deregister (ctx : Context) (driver : Driver) :
    Context × List TraceEvent :=
  if !ctx.hasHotplug then
    (ctx, [])
  else
    let r := deregLoop driver ctx.hotplug_drivers
    ({ ctx with hotplug_drivers := r.1 },
     TraceEvent.lock :: (r.2 ++ [TraceEvent.unlock]))

/-- The loop of `usbi_hotplug_deregister_all`: every entry has
`disconnect_all` run on it (firing its disconnect callbacks and emptying its
device list); the entry itself is neither unlinked nor freed. -/
def deregAllLoop : List HotplugList → List HotplugList × List TraceEvent
  | [] => ([], [])
  | it :: rest =>
    let r := usbi_hotplug_disconnect_all it
    let rests := deregAllLoop rest
    (r.1 :: rests.1, r.2 ++ rests.2)

/-- `usbi_hotplug_deregister_all`: under the lock, runs `disconnect_all` on
every entry of the driver list. -/
def usbi_hotplug_deregister_all (ctx : Context) : Context × List TraceEvent :=
  let r := deregAllLoop ctx.hotplug_drivers
  ({ ctx with hotplug_drivers := r.1 },
   TraceEvent.lock :: (r.2 ++ [TraceEvent.unlock]))

/-- The operations a client or the event layer can perform on the
registry. -/
inductive Op where
  | register (driver : Option Driver) (mallocOk : Bool) : Op
  | deregister (driver : Driver) : Op
  | dispatch (dev : Device) (event : Int) : Op
  | deregisterAll : Op

/-- Runs one operation, returning the new context and its trace (the status
returned by `register` is dropped here; claims about it are stated on
`libusb_hotplug_register` directly). -/
def step (ctx : Context) : Op → Context × List TraceEvent
  | Op.register d m => ((libusb_hotplug_register ctx d m).2.1, (libusb_hotplug_register ctx d m).2.2)
  | Op.deregister d => libusb_hotplug_deregister ctx d
  | Op.dispatch dev ev => usbi_hotplug_match ctx dev ev
  | Op.deregisterAll => usbi_hotplug_deregister_all ctx

/-- Runs a sequence of operations, concatenating their traces. -/
def run (ctx : Context) : List Op → Context × List TraceEvent
  | [] => (ctx, [])
  | op :: ops =>
    let r := step ctx op
    let rs := run r.1 ops
    (rs.1, r.2 ++ rs.2)

/-- The context at startup: no registered drivers, node counter at zero. -/
def initContext (hasHotplug : Bool) (devs : List Device) : Context :=
  ⟨hasHotplug, devs, [], 0⟩

/-- The three independent field tests of the Match Engine, as the spec words
them: each of vendor/product/class passes iff the filter value is the
wildcard sentinel or equals the corresponding descriptor field. -/
def fieldsMatch (driver : Driver) (dev : Device) : Bool :=
  (driver.vid == LIBUSB_HOTPLUG_MATCH_ANY || driver.vid == (dev.idVendor : Int)) &&
  (driver.pid == LIBUSB_HOTPLUG_MATCH_ANY || driver.pid == (dev.idProduct : Int)) &&
  (driver.dev_class == LIBUSB_HOTPLUG_MATCH_ANY || driver.dev_class == (dev.bDeviceClass : Int))

/-- A dispatch of an ARRIVED event is accepted by an entry iff the field
tests pass and the `connect` callback returns 0 (only then does the code
record the device). -/
def accepts (driver : Driver) (dev : Device) : Bool :=
  fieldsMatch driver dev && driver.connect dev == 0

/-- True iff some callback event of the trace occurs while the registry lock
is held (scanning with an explicit lock-depth counter). -/
def callbackWhileLocked : Nat → List TraceEvent → Bool
  | _, [] => false
  | d, TraceEvent.lock :: tr => callbackWhileLocked (d + 1) tr
  | d, TraceEvent.unlock :: tr => callbackWhileLocked (d - 1) tr
  | d, TraceEvent.connect _ _ :: tr => decide (0 < d) || callbackWhileLocked d tr
  | d, TraceEvent.disconnect _ _ :: tr => decide (0 < d) || callbackWhileLocked d tr

/-- True iff some callback event of the trace occurs while the registry lock
is not held. -/
def callbackOutsideLock : Nat → List TraceEvent → Bool
  | _, [] => false
  | d, TraceEvent.lock :: tr => callbackOutsideLock (d + 1) tr
  | d, TraceEvent.unlock :: tr => callbackOutsideLock (d - 1) tr
  | d, TraceEvent.connect _ _ :: tr => decide (d = 0) || callbackOutsideLock d tr
  | d, TraceEvent.disconnect _ _ :: tr => decide (d = 0) || callbackOutsideLock d tr

/-- True iff the trace contains no lock or unlock event. -/
def noLockEvents : List TraceEvent → Bool
  | [] => true
  | TraceEvent.lock :: _ => false
  | TraceEvent.unlock :: _ => false
  | TraceEvent.connect _ _ :: tr => noLockEvents tr
  | TraceEvent.disconnect _ _ :: tr => noLockEvents tr

/-- True iff the trace contains some callback (connect or disconnect)
event. -/
def hasCallback : List TraceEvent → Bool
  | [] => false
  | TraceEvent.connect _ _ :: _ => true
  | TraceEvent.disconnect _ _ :: _ => true
  | _ :: tr => hasCallback tr

/-- The number of `connect` (on_arrived) invocations of the given driver in
a trace. -/
def connectCount (driverId : Nat) : List TraceEvent → Nat
  | [] => 0
  | TraceEvent.connect j _ :: tr =>
    (if j = driverId then 1 else 0) + connectCount driverId tr
  | _ :: tr => connectCount driverId tr

/-- The number of devices of a list passing a driver's field tests. -/
def matchingCount (driver : Driver) (devs : List Device) : Nat :=
  (devs.filter (fun dv => fieldsMatch driver dv)).length

/-- The number of devices of a list whose ARRIVED dispatch the entry
accepts. -/
def acceptCount (driver : Driver) (devs : List Device) : Nat :=
  (devs.filter (fun dv => accepts driver dv)).length

/-- The effect of one ARRIVED dispatch of a device on one entry: the device
is prepended to the entry's device list iff the dispatch is accepted. -/
def arrStep (dev : Device) (it : HotplugList) : HotplugList :=
  if accepts it.driver dev then { it with device_list := dev :: it.device_list }
  else it

/-- The effect on one entry of ARRIVED dispatches of a whole device list. -/
def foldArr (it : HotplugList) (devs : List Device) : HotplugList :=
  devs.foldl (fun acc dv => arrStep dv acc) it

/-- How many `connect` invocations with driver id `i` one ARRIVED dispatch
of `dv` produces on a registry whose entries carry the given drivers. -/
def perDeviceCount (i : Nat) (drs : List Driver) (dv : Device) : Nat :=
  (drs.filter (fun d => d.id == i && fieldsMatch d dv)).length

/-- The kind of the most recent event concerning one device under one entry:
no event yet, an ARRIVED dispatch, a LEFT dispatch, or a deregister-all
sweep. -/
inductive LastEv where
  | noEv : LastEv
  | arrivedEv : LastEv
  | leftEv : LastEv
  | sweptEv : LastEv
deriving DecidableEq

/-- Abstract view of one registration entry: its driver and, per device, the
most recent event concerning that device since the entry's creation. -/
structure SpecEntry where
  driver : Driver
  last : Device → LastEv

/-- Records an event kind for one device of an abstract entry. -/
def setLast (e : SpecEntry) (dev : Device) (k : LastEv) : SpecEntry :=
  { e with last := fun dv => if dv = dev then k else e.last dv }

/-- Abstract effect of one dispatch: an ARRIVED or LEFT event is recorded
for the dispatched device on every entry; any other event value records
nothing. -/
def specDispatch (dev : Device) (event : Int) (s : List SpecEntry) : List SpecEntry :=
  if event = LIBUSB_HOTPLUG_EVENT_DEVICE_ARRIVED then
    s.map (fun e => setLast e dev LastEv.arrivedEv)
  else if event = LIBUSB_HOTPLUG_EVENT_DEVICE_LEFT then
    s.map (fun e => setLast e dev LastEv.leftEv)
  else
    s

/-- Abstract effect of `register`, mirroring the code's branch conditions: on
success a fresh entry (no events yet) is prepended and, when the ENUMERATE
flag is set, every current device is replayed as an ARRIVED dispatch to the
whole registry. -/
def specRegister (driver : Option Driver) (mallocOk : Bool) (hasHotplug : Bool)
    (devs : List Device) (s : List SpecEntry) : List SpecEntry :=
  if !hasHotplug then s
  else
    match driver with
    | none => s
    | some d =>
      if invalidDriver d then s
      else if !mallocOk then s
      else
        let s₁ := SpecEntry.mk d (fun _ => LastEv.noEv) :: s
        if d.flags &&& LIBUSB_HOTPLUG_ENUMERATE != 0 then
          devs.foldl (fun acc dv =>
            specDispatch dv LIBUSB_HOTPLUG_EVENT_DEVICE_ARRIVED acc) s₁
        else s₁

/-- Abstract effect of one operation.  `deregister` destroys the matching
entries; `deregisterAll` destroys no entry but records a sweep event for
every device of every entry. -/
def specStep (hasHotplug : Bool) (devs : List Device)
    (s : List SpecEntry) : Op → List SpecEntry
  | Op.register d m => specRegister d m hasHotplug devs s
  | Op.deregister d =>
    if !hasHotplug then s else s.filter (fun e => e.driver.id != d.id)
  | Op.dispatch dev ev => specDispatch dev ev s
  | Op.deregisterAll => s.map (fun e => { e with last := fun _ => LastEv.sweptEv })

/-- Abstract run of a sequence of operations. -/
def specRun (hasHotplug : Bool) (devs : List Device)
    (s : List SpecEntry) : List Op → List SpecEntry
  | [] => s
  | op :: ops => specRun hasHotplug devs (specStep hasHotplug devs s op) ops

/-- Abstract effect of one operation exactly as claim C3 words it: identical
to `specStep` except that a deregister-all sweep records nothing (the claim
admits only LEFT dispatches and entry destruction as events that can clear
membership). -/
def claimStep (hasHotplug : Bool) (devs : List Device)
    (s : List SpecEntry) : Op → List SpecEntry
  | Op.register d m => specRegister d m hasHotplug devs s
  | Op.deregister d =>
    if !hasHotplug then s else s.filter (fun e => e.driver.id != d.id)
  | Op.dispatch dev ev => specDispatch dev ev s
  | Op.deregisterAll => s

/-- Abstract run following claim C3's wording. -/
def claimRun (hasHotplug : Bool) (devs : List Device)
    (s : List SpecEntry) : List Op → List SpecEntry
  | [] => s
  | op :: ops => claimRun hasHotplug devs (claimStep hasHotplug devs s op) ops

/-- Correspondence between one code entry and one abstract entry: same
driver, and the device list holds exactly the devices whose most recent
event is an accepted ARRIVED dispatch. -/
def EntryRel (it : HotplugList) (e : SpecEntry) : Prop :=
  it.driver = e.driver ∧
  ∀ dv : Device, dv ∈ it.device_list ↔
    (e.last dv = LastEv.arrivedEv ∧ accepts it.driver dv = true)

/-- Correspondence between a context and an abstract registry. -/
def Rel (hasHotplug : Bool) (devs : List Device) (ctx : Context)
    (s : List SpecEntry) : Prop :=
  ctx.hasHotplug = hasHotplug ∧ ctx.usb_devs = devs ∧
  List.Forall₂ EntryRel ctx.hotplug_drivers s

lemma ldiff_two_pow_sub_one_eq_zero_iff (n k : Nat) :
    Nat.ldiff n (2 ^ k - 1) = 0 ↔ n < 2 ^ k := by
  constructor
  · intro h
    apply Nat.lt_pow_two_of_testBit
    intro i hi
    have hb := congrArg (fun m => Nat.testBit m i) h
    simp only [Nat.testBit_ldiff, Nat.testBit_two_pow_sub_one, Nat.zero_testBit] at hb
    rcases Bool.and_eq_false_iff.mp hb with h1 | h1
    · exact h1
    · exfalso
      cases hdk : decide (i < k) with
      | false => rw [hdk] at h1; cases h1
      | true => exact absurd (of_decide_eq_true hdk) (by omega)
  · intro h
    apply Nat.eq_of_testBit_eq
    intro i
    simp only [Nat.testBit_ldiff, Nat.testBit_two_pow_sub_one, Nat.zero_testBit,
      Bool.and_eq_false_iff]
    by_cases hik : i < k
    · right
      simpa using hik
    · left
      exact Nat.testBit_lt_two_pow (lt_of_lt_of_le h (Nat.pow_le_pow_right (by omega) (by omega)))

lemma land_not_mask_eq_zero_iff (k : Nat) (v : Int) :
    Int.land (Int.negSucc (2 ^ k - 1)) v = 0 ↔ 0 ≤ v ∧ v < ((2 ^ k : Nat) : Int) := by
  cases v with
  | ofNat n =>
    show Int.ofNat (Nat.ldiff n (2 ^ k - 1)) = 0 ↔ _
    rw [show ((0 : Int) = Int.ofNat 0) from rfl]
    constructor
    · intro h
      have hn := (ldiff_two_pow_sub_one_eq_zero_iff n k).mp (Int.ofNat.inj h)
      refine ⟨Int.ofNat_nonneg n, ?_⟩
      show ((n : Int)) < ((2 ^ k : Nat) : Int)
      exact_mod_cast hn
    · rintro ⟨-, h⟩
      have h' : ((n : Int)) < ((2 ^ k : Nat) : Int) := h
      have hn : n < 2 ^ k := by exact_mod_cast h'
      rw [(ldiff_two_pow_sub_one_eq_zero_iff n k).mpr hn]
  | negSucc n =>
    show Int.negSucc ((2 ^ k - 1) ||| n) = 0 ↔ _
    constructor
    · intro h
      cases h
    · rintro ⟨h, -⟩
      exact absurd h (by exact Int.not_le.mpr (Int.negSucc_lt_zero n))

lemma fieldOutOfRange_mask16 (v : Int) :
    fieldOutOfRange 0xffff v = false ↔
      v = LIBUSB_HOTPLUG_MATCH_ANY ∨ (0 ≤ v ∧ v < 65536) := by
  have h := land_not_mask_eq_zero_iff 16 v
  rw [show (Int.negSucc (2 ^ 16 - 1)) = Int.not (0xffff : Int) from rfl,
      show (((2 ^ 16 : Nat) : Int)) = 65536 by norm_num] at h
  unfold fieldOutOfRange
  simp only [Bool.and_eq_false_iff, bne_eq_false_iff_eq, h]

lemma fieldOutOfRange_mask8 (v : Int) :
    fieldOutOfRange 0xff v = false ↔
      v = LIBUSB_HOTPLUG_MATCH_ANY ∨ (0 ≤ v ∧ v < 256) := by
  have h := land_not_mask_eq_zero_iff 8 v
  rw [show (Int.negSucc (2 ^ 8 - 1)) = Int.not (0xff : Int) from rfl,
      show (((2 ^ 8 : Nat) : Int)) = 256 by norm_num] at h
  unfold fieldOutOfRange
  simp only [Bool.and_eq_false_iff, bne_eq_false_iff_eq, h]

lemma usbi_hotplug_match_driver_eq (d : Driver) (dev : Device) :
    usbi_hotplug_match_driver d dev =
      if fieldsMatch d dev then (d.connect dev, [TraceEvent.connect d.id dev])
      else (1, []) := by
  unfold usbi_hotplug_match_driver fieldsMatch
  cases h1 : (d.vid == LIBUSB_HOTPLUG_MATCH_ANY) <;>
  cases h2 : (d.vid == ((dev.idVendor : Int))) <;>
  cases h3 : (d.pid == LIBUSB_HOTPLUG_MATCH_ANY) <;>
  cases h4 : (d.pid == ((dev.idProduct : Int))) <;>
  cases h5 : (d.dev_class == LIBUSB_HOTPLUG_MATCH_ANY) <;>
  cases h6 : (d.dev_class == ((dev.bDeviceClass : Int))) <;>
  simp [h1, h2, h3, h4, h5, h6, bne]

lemma fieldsMatch_iff (d : Driver) (dev : Device) :
    fieldsMatch d dev = true ↔
      ((d.vid = LIBUSB_HOTPLUG_MATCH_ANY ∨ d.vid = (dev.idVendor : Int)) ∧
       (d.pid = LIBUSB_HOTPLUG_MATCH_ANY ∨ d.pid = (dev.idProduct : Int)) ∧
       (d.dev_class = LIBUSB_HOTPLUG_MATCH_ANY ∨ d.dev_class = (dev.bDeviceClass : Int))) := by
  simp [fieldsMatch, and_assoc]

lemma invalidDriver_iff (d : Driver) :
    invalidDriver d = false ↔
      ((d.vid = LIBUSB_HOTPLUG_MATCH_ANY ∨ (0 ≤ d.vid ∧ d.vid < 65536)) ∧
       (d.pid = LIBUSB_HOTPLUG_MATCH_ANY ∨ (0 ≤ d.pid ∧ d.pid < 65536)) ∧
       (d.dev_class = LIBUSB_HOTPLUG_MATCH_ANY ∨ (0 ≤ d.dev_class ∧ d.dev_class < 256))) := by
  unfold invalidDriver
  rw [Bool.or_eq_false_iff, Bool.or_eq_false_iff]
  rw [fieldOutOfRange_mask16, fieldOutOfRange_mask16, fieldOutOfRange_mask8]
  tauto

lemma matchLoop_other (dev : Device) (event : Int)
    (h1 : event ≠ LIBUSB_HOTPLUG_EVENT_DEVICE_ARRIVED)
    (h2 : event ≠ LIBUSB_HOTPLUG_EVENT_DEVICE_LEFT)
    (l : List HotplugList) : matchLoop dev event l = (l, []) := by
  induction l with
  | nil => rfl
  | cons it rest ih => simp [matchLoop, h1, h2, ih]

/-- Claim C9 — when the hotplug capability query reports no support,
`register` returns `LIBUSB_ERROR_NOT_SUPPORTED`, leaves the context (in
particular the registry) exactly as it was, and produces no event at all. -/
theorem c9_register_unsupported (ctx : Context) (driver : Option Driver)
    (mallocOk : Bool) (h : ctx.hasHotplug = false) :
    libusb_hotplug_register ctx driver mallocOk =
      (LIBUSB_ERROR_NOT_SUPPORTED, ctx, []) := by
  unfold libusb_hotplug_register
  simp [h]

/-- Witness for C9 at a concrete capability-less context. -/
theorem c9_register_unsupported_witness :
    (initContext false []).hasHotplug = false ∧
    libusb_hotplug_register (initContext false []) none true =
      (LIBUSB_ERROR_NOT_SUPPORTED, initContext false [], []) :=
  ⟨rfl, c9_register_unsupported (initContext false []) none true rfl⟩

/-- Claim C10 — dispatching an event value that is neither ARRIVED nor LEFT
leaves the context (every entry's device list and the registry list)
unchanged and its trace is just the lock acquisition and release: no user
callback is invoked. -/
theorem c10_dispatch_other_event_noop (ctx : Context) (dev : Device)
    (event : Int) (h1 : event ≠ LIBUSB_HOTPLUG_EVENT_DEVICE_ARRIVED)
    (h2 : event ≠ LIBUSB_HOTPLUG_EVENT_DEVICE_LEFT) :
    usbi_hotplug_match ctx dev event =
      (ctx, [TraceEvent.lock, TraceEvent.unlock]) := by
  unfold usbi_hotplug_match
  rw [matchLoop_other dev event h1 h2]
  rfl

/-- Witness for C10 at the concrete event value 3. -/
theorem c10_dispatch_other_event_noop_witness :
    (3 : Int) ≠ LIBUSB_HOTPLUG_EVENT_DEVICE_ARRIVED ∧
    (3 : Int) ≠ LIBUSB_HOTPLUG_EVENT_DEVICE_LEFT ∧
    usbi_hotplug_match (initContext true []) ⟨0, 0, 0, 0⟩ 3 =
      (initContext true [], [TraceEvent.lock, TraceEvent.unlock]) :=
  ⟨by decide, by decide,
   c10_dispatch_other_event_noop (initContext true []) ⟨0, 0, 0, 0⟩ 3
     (by decide) (by decide)⟩

/-- Claim C5 (amended) — the vid/pid/class tests of
`usbi_hotplug_match_driver` each pass iff the filter field is the wildcard
sentinel or equals the corresponding descriptor field (for every value,
including the boundaries 0x0000 and 0xFFFF); when any field test fails the
function returns 1 without invoking anything, but when all three pass it
invokes the entry's `connect` callback and returns that callback's result,
so the match decision is not a pure function of the three field tests
alone. -/
theorem c5_match_decision (d : Driver) (dev : Device) :
    usbi_hotplug_match_driver d dev =
      (if fieldsMatch d dev then (d.connect dev, [TraceEvent.connect d.id dev])
       else (1, [])) ∧
    (fieldsMatch d dev = true ↔
      ((d.vid = LIBUSB_HOTPLUG_MATCH_ANY ∨ d.vid = (dev.idVendor : Int)) ∧
       (d.pid = LIBUSB_HOTPLUG_MATCH_ANY ∨ d.pid = (dev.idProduct : Int)) ∧
       (d.dev_class = LIBUSB_HOTPLUG_MATCH_ANY ∨ d.dev_class = (dev.bDeviceClass : Int)))) :=
  ⟨usbi_hotplug_match_driver_eq d dev, fieldsMatch_iff d dev⟩

/-- An all-wildcard driver whose connect callback returns 1. -/
def drvRejecting : Driver := ⟨3, -1, -1, -1, 0, 3, fun _ => 1⟩

/-- A sample device. -/
def devZero : Device := ⟨5, 0, 0, 0⟩

/-- Counterexample to claim C5 as stated: for this filter every field test
passes (all wildcards), yet the match decision is failure (the return value
is the connect callback's nonzero result, a condition other than the three
field tests), and the decision invoked a user callback. -/
theorem c5_counterexample :
    fieldsMatch drvRejecting devZero = true ∧
    (usbi_hotplug_match_driver drvRejecting devZero).1 ≠ 0 ∧
    (usbi_hotplug_match_driver drvRejecting devZero).2 =
      [TraceEvent.connect 3 devZero] :=
  ⟨rfl, by decide, rfl⟩

/-- A context with hotplug capability and no devices or drivers. -/
def ctxCap : Context := initContext true []

/-- Claim C7 (amended) — with hotplug supported, `register` returns
`LIBUSB_ERROR_INVALID_PARAM` exactly when the driver pointer is null or one
of vid/pid/class is outside its legal numeric range (16-bit, 16-bit, 8-bit)
and is not the wildcard sentinel; no event-mask or callback-presence check
exists.  Whenever it so fails, the context (hence the registry) is
unchanged. -/
theorem c7_register_invalid_param (ctx : Context) (driver : Option Driver)
    (mallocOk : Bool) (hcap : ctx.hasHotplug = true) :
    ((libusb_hotplug_register ctx driver mallocOk).1 = LIBUSB_ERROR_INVALID_PARAM ↔
      (driver = none ∨ ∃ d, driver = some d ∧
        ¬((d.vid = LIBUSB_HOTPLUG_MATCH_ANY ∨ (0 ≤ d.vid ∧ d.vid < 65536)) ∧
          (d.pid = LIBUSB_HOTPLUG_MATCH_ANY ∨ (0 ≤ d.pid ∧ d.pid < 65536)) ∧
          (d.dev_class = LIBUSB_HOTPLUG_MATCH_ANY ∨ (0 ≤ d.dev_class ∧ d.dev_class < 256))))) ∧
    ((libusb_hotplug_register ctx driver mallocOk).1 = LIBUSB_ERROR_INVALID_PARAM →
      (libusb_hotplug_register ctx driver mallocOk).2.1 = ctx) := by
  cases driver with
  | none =>
    have hres : libusb_hotplug_register ctx none mallocOk =
        (LIBUSB_ERROR_INVALID_PARAM, ctx, []) := by
      unfold libusb_hotplug_register
      simp [hcap]
    rw [hres]
    exact ⟨⟨fun _ => Or.inl rfl, fun _ => rfl⟩, fun _ => rfl⟩
  | some d =>
    cases hv : invalidDriver d with
    | false =>
      have hd := (invalidDriver_iff d).mp hv
      have h1 : (libusb_hotplug_register ctx (some d) mallocOk).1 = LIBUSB_SUCCESS ∨
          (libusb_hotplug_register ctx (some d) mallocOk).1 = LIBUSB_ERROR_NO_MEM := by
        unfold libusb_hotplug_register
        simp only [hcap, hv]
        cases mallocOk with
        | false => simp
        | true =>
          cases he : (d.flags &&& LIBUSB_HOTPLUG_ENUMERATE != 0) <;> simp [he]
      have hni : (libusb_hotplug_register ctx (some d) mallocOk).1 ≠
          LIBUSB_ERROR_INVALID_PARAM := by
        rcases h1 with h | h <;> rw [h] <;> decide
      refine ⟨⟨fun h => absurd h hni, ?_⟩, fun h => absurd h hni⟩
      rintro (h | ⟨d', hd', hbad⟩)
      · cases h
      · have hdd := Option.some.inj hd'
        subst hdd
        exact absurd hd hbad
    | true =>
      have hres : libusb_hotplug_register ctx (some d) mallocOk =
          (LIBUSB_ERROR_INVALID_PARAM, ctx, []) := by
        unfold libusb_hotplug_register
        simp [hcap, hv]
      rw [hres]
      refine ⟨⟨fun _ => ?_, fun _ => rfl⟩, fun _ => rfl⟩
      right
      refine ⟨d, rfl, ?_⟩
      intro hgood
      rw [(invalidDriver_iff d).mpr hgood] at hv
      cases hv

/-- A driver whose vid is out of the 16-bit range and not the sentinel. -/
def drvBadVid : Driver := ⟨4, 0x10000, -1, -1, 0, 3, fun _ => 0⟩

/-- Witness for C7: the concrete out-of-range driver is rejected with
`LIBUSB_ERROR_INVALID_PARAM` and the registry stays empty. -/
theorem c7_register_invalid_param_witness :
    ctxCap.hasHotplug = true ∧
    (libusb_hotplug_register ctxCap (some drvBadVid) true).1 =
      LIBUSB_ERROR_INVALID_PARAM ∧
    (libusb_hotplug_register ctxCap (some drvBadVid) true).2.1 = ctxCap := by
  have h := c7_register_invalid_param ctxCap (some drvBadVid) true rfl
  have hbad := h.1.mpr (Or.inr ⟨drvBadVid, rfl, by decide⟩)
  exact ⟨rfl, hbad, h.2 hbad⟩

/-- A well-formed driver whose (spec-modelled) event mask is empty. -/
def drvEmptyMask : Driver := ⟨7, -1, -1, -1, 0, 0, fun _ => 0⟩

/-- Counterexample to claim C7 as stated: the event mask of this driver is
empty, yet `register` succeeds and inserts the entry — the code validates
only the numeric ranges, never the event mask or the callbacks. -/
theorem c7_counterexample :
    drvEmptyMask.events = 0 ∧
    (libusb_hotplug_register ctxCap (some drvEmptyMask) true).1 = LIBUSB_SUCCESS ∧
    (libusb_hotplug_register ctxCap (some drvEmptyMask) true).2.1.hotplug_drivers.length = 1 :=
  ⟨rfl, rfl, rfl⟩

/-- Claim C8 (amended) — `register` returns only a status code, one of
`LIBUSB_SUCCESS`, `LIBUSB_ERROR_NOT_SUPPORTED`, `LIBUSB_ERROR_INVALID_PARAM`
or `LIBUSB_ERROR_NO_MEM`; no handle is minted, and every successful call
returns the very same value `LIBUSB_SUCCESS`. -/
theorem c8_register_returns_status_only (ctx : Context) (driver : Option Driver)
    (mallocOk : Bool) :
    (libusb_hotplug_register ctx driver mallocOk).1 = LIBUSB_SUCCESS ∨
    (libusb_hotplug_register ctx driver mallocOk).1 = LIBUSB_ERROR_NOT_SUPPORTED ∨
    (libusb_hotplug_register ctx driver mallocOk).1 = LIBUSB_ERROR_INVALID_PARAM ∨
    (libusb_hotplug_register ctx driver mallocOk).1 = LIBUSB_ERROR_NO_MEM := by
  unfold libusb_hotplug_register
  cases ctx.hasHotplug with
  | false => cases driver <;> simp
  | true =>
    cases driver with
    | none => simp
    | some d => simp; split_ifs <;> simp

/-- An all-wildcard driver accepting everything. -/
def drvA : Driver := ⟨1, -1, -1, -1, 0, 3, fun _ => 0⟩

/-- A second all-wildcard driver accepting everything. -/
def drvB : Driver := ⟨2, -1, -1, -1, 0, 3, fun _ => 0⟩

/-- Counterexample to claim C8 as stated: two consecutive successful
register calls return the same value (`LIBUSB_SUCCESS`), not two distinct
monotonically assigned handles. -/
theorem c8_counterexample :
    (libusb_hotplug_register ctxCap (some drvA) true).1 = LIBUSB_SUCCESS ∧
    (libusb_hotplug_register
        (libusb_hotplug_register ctxCap (some drvA) true).2.1
        (some drvB) true).1 = LIBUSB_SUCCESS ∧
    (libusb_hotplug_register ctxCap (some drvA) true).1 =
      (libusb_hotplug_register
        (libusb_hotplug_register ctxCap (some drvA) true).2.1
        (some drvB) true).1 :=
  ⟨rfl, rfl, rfl⟩

lemma disconnectAllLoop_eq (i : Nat) (l : List Device) :
    disconnectAllLoop i l = l.map (fun dv => TraceEvent.disconnect i dv) := by
  induction l with
  | nil => rfl
  | cons dv rest ih => simp [disconnectAllLoop, ih]

lemma deregLoop_eq (d : Driver) (l : List HotplugList) :
    deregLoop d l =
      (l.filter (fun it => it.driver.id != d.id),
       ((l.filter (fun it => it.driver.id == d.id)).map
         (fun it => it.device_list.map
           (fun dv => TraceEvent.disconnect it.driver.id dv))).flatten) := by
  induction l with
  | nil => rfl
  | cons it rest ih =>
    by_cases h : it.driver.id = d.id
    · simp [deregLoop, h, ih, usbi_hotplug_disconnect_all, disconnectAllLoop_eq]
    · simp [deregLoop, h, ih, List.filter_cons]

lemma deregAllLoop_eq (l : List HotplugList) :
    deregAllLoop l =
      (l.map (fun it => { it with device_list := [] }),
       (l.map (fun it => it.device_list.map
         (fun dv => TraceEvent.disconnect it.driver.id dv))).flatten) := by
  induction l with
  | nil => rfl
  | cons it rest ih =>
    simp [deregAllLoop, usbi_hotplug_disconnect_all, disconnectAllLoop_eq, ih]

/-- Claim C1 (amended) — with hotplug supported, `deregister` acts fully
synchronously on the deregistering thread: under the registry lock it
invokes the entry's `disconnect` (on_left) callback once per attached device
of every entry matching the driver pointer, and unlinks and frees those
entries (they are gone from the registry when the call returns).  No
pending-deletion flag is set and no deferred deregistration channel is
signalled — neither exists in the code, as the trace equation shows. -/
theorem c1_deregister_synchronous (ctx : Context) (d : Driver)
    (hcap : ctx.hasHotplug = true) :
    libusb_hotplug_deregister ctx d =
      ({ ctx with hotplug_drivers :=
           ctx.hotplug_drivers.filter (fun it => it.driver.id != d.id) },
       TraceEvent.lock ::
         (((ctx.hotplug_drivers.filter (fun it => it.driver.id == d.id)).map
             (fun it => it.device_list.map
               (fun dv => TraceEvent.disconnect it.driver.id dv))).flatten
           ++ [TraceEvent.unlock])) := by
  unfold libusb_hotplug_deregister
  rw [hcap, deregLoop_eq]
  rfl

/-- A registry entry for `drvA` currently holding the device `devZero`. -/
def entA : HotplugList := ⟨0, drvA, [devZero]⟩

/-- A context with one registered entry that has one attached device. -/
def ctxOneEntry : Context := ⟨true, [], [entA], 1⟩

/-- Witness for C1 at a concrete context with one matching entry. -/
theorem c1_deregister_synchronous_witness :
    ctxOneEntry.hasHotplug = true ∧
    libusb_hotplug_deregister ctxOneEntry drvA =
      ({ ctxOneEntry with hotplug_drivers := [] },
       [TraceEvent.lock, TraceEvent.disconnect 1 devZero, TraceEvent.unlock]) := by
  refine ⟨rfl, ?_⟩
  rw [c1_deregister_synchronous ctxOneEntry drvA rfl]
  rfl

/-- Counterexample to claim C1 as stated: deregistering the registered
entry fires its `disconnect` (on_left) callback synchronously, and the entry
is freed synchronously (the registry is empty when the call returns) — there
is no pending-deletion flag and no channel signal. -/
theorem c1_counterexample :
    hasCallback (libusb_hotplug_deregister ctxOneEntry drvA).2 = true ∧
    (libusb_hotplug_deregister ctxOneEntry drvA).2 =
      [TraceEvent.lock, TraceEvent.disconnect 1 devZero, TraceEvent.unlock] ∧
    (libusb_hotplug_deregister ctxOneEntry drvA).1.hotplug_drivers = [] :=
  ⟨rfl, rfl, rfl⟩

/-- Claim C6 (amended) — `deregister_all` runs `disconnect_all` on every
entry: under the registry lock it invokes the entry's `disconnect` (on_left)
callback once per attached device and empties the attached sets, but it
destroys no entry — every registration entry is still in the registry when
it returns. -/
theorem c6_deregister_all_behavior (ctx : Context) :
    usbi_hotplug_deregister_all ctx =
      ({ ctx with hotplug_drivers :=
           ctx.hotplug_drivers.map (fun it => { it with device_list := [] }) },
       TraceEvent.lock ::
         ((ctx.hotplug_drivers.map (fun it => it.device_list.map
             (fun dv => TraceEvent.disconnect it.driver.id dv))).flatten
           ++ [TraceEvent.unlock])) := by
  unfold usbi_hotplug_deregister_all
  rw [deregAllLoop_eq]

/-- Counterexample to claim C6 as stated: at teardown, `deregister_all` on a
registry with one entry holding one device invokes that entry's user
callback (`disconnect`), and afterwards the registry still contains the
entry. -/
theorem c6_counterexample :
    hasCallback (usbi_hotplug_deregister_all ctxOneEntry).2 = true ∧
    (usbi_hotplug_deregister_all ctxOneEntry).2 =
      [TraceEvent.lock, TraceEvent.disconnect 1 devZero, TraceEvent.unlock] ∧
    (usbi_hotplug_deregister_all ctxOneEntry).1.hotplug_drivers.length = 1 :=
  ⟨rfl, rfl, rfl⟩

lemma noLockEvents_append (a b : List TraceEvent) :
    noLockEvents (a ++ b) = (noLockEvents a && noLockEvents b) := by
  induction a with
  | nil => simp [noLockEvents]
  | cons e tr ih => cases e <;> simp [noLockEvents, ih]

lemma noLockEvents_match_driver (d : Driver) (dev : Device) :
    noLockEvents (usbi_hotplug_match_driver d dev).2 = true := by
  rw [usbi_hotplug_match_driver_eq]
  by_cases h : fieldsMatch d dev = true
  · simp [h, noLockEvents]
  · simp [h, noLockEvents]

lemma noLockEvents_disconnectAllLoop (i : Nat) (l : List Device) :
    noLockEvents (disconnectAllLoop i l) = true := by
  induction l with
  | nil => rfl
  | cons dv rest ih => simp [disconnectAllLoop, noLockEvents, ih]

lemma noLockEvents_disconnectDeviceLoop (i : Nat) (dev : Device) (l : List Device) :
    noLockEvents (disconnectDeviceLoop i dev l).2 = true := by
  induction l with
  | nil => rfl
  | cons dv rest ih =>
    by_cases h : dv = dev <;> simp [disconnectDeviceLoop, h, noLockEvents, ih]

lemma noLockEvents_matchLoop (dev : Device) (event : Int) (l : List HotplugList) :
    noLockEvents (matchLoop dev event l).2 = true := by
  induction l with
  | nil => rfl
  | cons it rest ih =>
    show noLockEvents (_ ++ _) = true
    rw [noLockEvents_append, ih, Bool.and_true]
    by_cases h1 : event = LIBUSB_HOTPLUG_EVENT_DEVICE_ARRIVED
    · rw [if_pos h1]
      by_cases h2 : (usbi_hotplug_match_driver it.driver dev).1 = 0 <;>
        simp [h2, noLockEvents_match_driver]
    · rw [if_neg h1]
      by_cases h2 : event = LIBUSB_HOTPLUG_EVENT_DEVICE_LEFT
      · rw [if_pos h2]
        exact noLockEvents_disconnectDeviceLoop _ _ _
      · rw [if_neg h2]
        rfl

lemma noLockEvents_deregLoop (d : Driver) (l : List HotplugList) :
    noLockEvents (deregLoop d l).2 = true := by
  induction l with
  | nil => rfl
  | cons it rest ih =>
    by_cases h : it.driver.id = d.id
    · have hb : (it.driver.id != d.id) = false := by simp [h]
      simp only [deregLoop, hb, Bool.false_eq_true, if_false]
      rw [noLockEvents_append, ih, Bool.and_true]
      exact noLockEvents_disconnectAllLoop _ _
    · have hb : (it.driver.id != d.id) = true := by simp [h]
      simpa only [deregLoop, hb, if_true] using ih

lemma noLockEvents_deregAllLoop (l : List HotplugList) :
    noLockEvents (deregAllLoop l).2 = true := by
  induction l with
  | nil => rfl
  | cons it rest ih =>
    show noLockEvents (_ ++ _) = true
    rw [noLockEvents_append, ih, Bool.and_true]
    show noLockEvents (disconnectAllLoop _ _) = true
    exact noLockEvents_disconnectAllLoop _ _

lemma callbackOutsideLock_append_of_noLock (tr rest : List TraceEvent) (d : Nat)
    (hd : d ≠ 0) (h : noLockEvents tr = true) :
    callbackOutsideLock d (tr ++ rest) = callbackOutsideLock d rest := by
  induction tr with
  | nil => rfl
  | cons e tr ih =>
    cases e with
    | lock => simp [noLockEvents] at h
    | unlock => simp [noLockEvents] at h
    | connect i dv =>
      rw [noLockEvents] at h
      simp [callbackOutsideLock, hd, ih h]
    | disconnect i dv =>
      rw [noLockEvents] at h
      simp [callbackOutsideLock, hd, ih h]

lemma callbackOutsideLock_bracket (inner rest : List TraceEvent)
    (h : noLockEvents inner = true) :
    callbackOutsideLock 0
        ((TraceEvent.lock :: (inner ++ [TraceEvent.unlock])) ++ rest) =
      callbackOutsideLock 0 rest := by
  show callbackOutsideLock 1 ((inner ++ [TraceEvent.unlock]) ++ rest) = _
  rw [List.append_assoc, callbackOutsideLock_append_of_noLock inner _ 1 (by omega) h]
  rfl

lemma callbackOutsideLock_match_append (ctx : Context) (dev : Device)
    (event : Int) (rest : List TraceEvent) :
    callbackOutsideLock 0 ((usbi_hotplug_match ctx dev event).2 ++ rest) =
      callbackOutsideLock 0 rest := by
  show callbackOutsideLock 0
      ((TraceEvent.lock :: ((matchLoop dev event ctx.hotplug_drivers).2 ++ [TraceEvent.unlock])) ++ rest) = _
  exact callbackOutsideLock_bracket _ rest (noLockEvents_matchLoop dev event ctx.hotplug_drivers)

lemma callbackOutsideLock_enumLoop (devs : List Device) (ctx : Context) :
    callbackOutsideLock 0 (enumLoop devs ctx).2 = false := by
  induction devs generalizing ctx with
  | nil => rfl
  | cons dv rest ih =>
    show callbackOutsideLock 0 ((usbi_hotplug_match ctx dv _).2 ++ _) = false
    rw [callbackOutsideLock_match_append]
    exact ih _

/-- Claim C2 (amended) — in every operation (dispatch, register with its
enumeration replay, deregister, and teardown's deregister-all), every user
callback invocation happens while the registry lock is held; the code never
releases the lock before invoking a callback. -/
theorem c2_no_callback_outside_lock (ctx : Context) (op : Op) :
    callbackOutsideLock 0 (step ctx op).2 = false := by
  cases op with
  | register driver mallocOk =>
    show callbackOutsideLock 0 (libusb_hotplug_register ctx driver mallocOk).2.2 = false
    unfold libusb_hotplug_register
    by_cases hcap : ctx.hasHotplug = true
    · rw [hcap]
      cases driver with
      | none => rfl
      | some d =>
        by_cases hv : invalidDriver d = true
        · simp only [hv, Bool.not_true, Bool.false_eq_true, if_false, if_true]
          rfl
        · rw [Bool.not_eq_true] at hv
          cases mallocOk with
          | false => simp only [hv]; rfl
          | true =>
            simp only [hv, Bool.false_eq_true, if_false, Bool.not_true,
              Bool.not_false, if_true]
            by_cases he : (d.flags &&& LIBUSB_HOTPLUG_ENUMERATE != 0) = true
            · simp only [he, if_true]
              show callbackOutsideLock 0
                  (TraceEvent.lock :: TraceEvent.unlock :: (enumLoop _ _).2) = false
              show callbackOutsideLock 0 (enumLoop _ _).2 = false
              exact callbackOutsideLock_enumLoop _ _
            · simp only [he, Bool.false_eq_true, if_false]
              rfl
    · rw [Bool.not_eq_true] at hcap
      rw [hcap]
      rfl
  | deregister d =>
    show callbackOutsideLock 0 (libusb_hotplug_deregister ctx d).2 = false
    unfold libusb_hotplug_deregister
    by_cases hcap : ctx.hasHotplug = true
    · rw [hcap]
      show callbackOutsideLock 0
          (TraceEvent.lock :: ((deregLoop d ctx.hotplug_drivers).2 ++ [TraceEvent.unlock])) = false
      have := callbackOutsideLock_bracket (deregLoop d ctx.hotplug_drivers).2 []
        (noLockEvents_deregLoop d ctx.hotplug_drivers)
      simpa using this
    · rw [Bool.not_eq_true] at hcap
      rw [hcap]
      rfl
  | dispatch dev ev =>
    show callbackOutsideLock 0 (usbi_hotplug_match ctx dev ev).2 = false
    have := callbackOutsideLock_match_append ctx dev ev []
    simpa using this
  | deregisterAll =>
    show callbackOutsideLock 0 (usbi_hotplug_deregister_all ctx).2 = false
    show callbackOutsideLock 0
        (TraceEvent.lock :: ((deregAllLoop ctx.hotplug_drivers).2 ++ [TraceEvent.unlock])) = false
    have := callbackOutsideLock_bracket (deregAllLoop ctx.hotplug_drivers).2 []
      (noLockEvents_deregAllLoop ctx.hotplug_drivers)
    simpa using this

/-- Counterexample to claim C2 as stated: both an ARRIVED dispatch on one
matching entry and a deregister of an entry with one attached device invoke
a user callback while the registry lock is held. -/
theorem c2_counterexample :
    callbackWhileLocked 0
        (usbi_hotplug_match ctxOneEntry devZero LIBUSB_HOTPLUG_EVENT_DEVICE_ARRIVED).2 = true ∧
    callbackWhileLocked 0 (libusb_hotplug_deregister ctxOneEntry drvA).2 = true :=
  ⟨rfl, rfl⟩

lemma arrStep_driver (dv : Device) (it : HotplugList) :
    (arrStep dv it).driver = it.driver := by
  unfold arrStep
  split_ifs <;> rfl

lemma matchLoop_arrived_cons (dv : Device) (it : HotplugList) (rest : List HotplugList) :
    matchLoop dv LIBUSB_HOTPLUG_EVENT_DEVICE_ARRIVED (it :: rest) =
      (arrStep dv it :: (matchLoop dv LIBUSB_HOTPLUG_EVENT_DEVICE_ARRIVED rest).1,
       (if fieldsMatch it.driver dv then [TraceEvent.connect it.driver.id dv] else [])
         ++ (matchLoop dv LIBUSB_HOTPLUG_EVENT_DEVICE_ARRIVED rest).2) := by
  by_cases hf : fieldsMatch it.driver dv = true
  · by_cases hc : it.driver.connect dv = 0
    · have ha : accepts it.driver dv = true := by simp [accepts, hf, hc]
      simp [matchLoop, usbi_hotplug_match_driver_eq, hf, hc, arrStep, ha,
        usbi_hotplug_connect_device]
    · have ha : accepts it.driver dv = false := by simp [accepts, hf, hc]
      simp [matchLoop, usbi_hotplug_match_driver_eq, hf, hc, arrStep, ha]
  · have ha : accepts it.driver dv = false := by simp [accepts, hf]
    simp [matchLoop, usbi_hotplug_match_driver_eq, hf, arrStep, ha]

lemma matchLoop_arrived_fst (dv : Device) (l : List HotplugList) :
    (matchLoop dv LIBUSB_HOTPLUG_EVENT_DEVICE_ARRIVED l).1 = l.map (arrStep dv) := by
  induction l with
  | nil => rfl
  | cons it rest ih =>
    rw [matchLoop_arrived_cons]
    simp [ih]

lemma matchLoop_arrived_snd (dv : Device) (l : List HotplugList) :
    (matchLoop dv LIBUSB_HOTPLUG_EVENT_DEVICE_ARRIVED l).2 =
      (l.map (fun it =>
        if fieldsMatch it.driver dv then [TraceEvent.connect it.driver.id dv]
        else [])).flatten := by
  induction l with
  | nil => rfl
  | cons it rest ih =>
    rw [matchLoop_arrived_cons]
    simp [ih]

lemma connectCount_append (i : Nat) (a b : List TraceEvent) :
    connectCount i (a ++ b) = connectCount i a + connectCount i b := by
  induction a with
  | nil => simp [connectCount]
  | cons e tr ih => cases e <;> simp [connectCount, ih, Nat.add_assoc]

lemma connectCount_formula (i : Nat) (dv : Device) (l : List HotplugList) :
    connectCount i ((l.map (fun it =>
        if fieldsMatch it.driver dv then [TraceEvent.connect it.driver.id dv]
        else [])).flatten) =
      perDeviceCount i (l.map (fun it => it.driver)) dv := by
  induction l with
  | nil => rfl
  | cons it rest ih =>
    simp only [List.map_cons, List.flatten_cons, connectCount_append]
    rw [ih]
    show _ = perDeviceCount i (it.driver :: _) dv
    unfold perDeviceCount
    rw [List.filter_cons]
    by_cases hf : fieldsMatch it.driver dv = true
    · by_cases hi : it.driver.id = i
      · simp only [hf, hi, if_true, perDeviceCount, connectCount]
        simp [connectCount]
        omega
      · simp [hf, hi, connectCount, perDeviceCount]
    · simp [hf, connectCount, perDeviceCount]

lemma match_arrived_map_driver (ctx : Context) (dv : Device) :
    ((usbi_hotplug_match ctx dv LIBUSB_HOTPLUG_EVENT_DEVICE_ARRIVED).1.hotplug_drivers).map
        (fun it => it.driver) =
      ctx.hotplug_drivers.map (fun it => it.driver) := by
  show ((matchLoop dv LIBUSB_HOTPLUG_EVENT_DEVICE_ARRIVED ctx.hotplug_drivers).1).map _ = _
  rw [matchLoop_arrived_fst, List.map_map]
  exact List.map_congr_left (fun it _ => arrStep_driver dv it)

lemma connectCount_match (i : Nat) (ctx : Context) (dv : Device) :
    connectCount i (usbi_hotplug_match ctx dv LIBUSB_HOTPLUG_EVENT_DEVICE_ARRIVED).2 =
      perDeviceCount i (ctx.hotplug_drivers.map (fun it => it.driver)) dv := by
  show connectCount i (TraceEvent.lock ::
      ((matchLoop dv LIBUSB_HOTPLUG_EVENT_DEVICE_ARRIVED ctx.hotplug_drivers).2
        ++ [TraceEvent.unlock])) = _
  show connectCount i ((matchLoop dv LIBUSB_HOTPLUG_EVENT_DEVICE_ARRIVED ctx.hotplug_drivers).2
        ++ [TraceEvent.unlock]) = _
  rw [connectCount_append, matchLoop_arrived_snd, connectCount_formula]
  simp [connectCount]

lemma connectCount_enumLoop (i : Nat) (devs : List Device) (ctx : Context) :
    connectCount i (enumLoop devs ctx).2 =
      (devs.map (perDeviceCount i (ctx.hotplug_drivers.map (fun it => it.driver)))).sum := by
  induction devs generalizing ctx with
  | nil => rfl
  | cons dv rest ih =>
    show connectCount i
        ((usbi_hotplug_match ctx dv LIBUSB_HOTPLUG_EVENT_DEVICE_ARRIVED).2
          ++ (enumLoop rest (usbi_hotplug_match ctx dv LIBUSB_HOTPLUG_EVENT_DEVICE_ARRIVED).1).2) = _
    rw [connectCount_append, connectCount_match, ih, match_arrived_map_driver,
      List.map_cons, List.sum_cons]

lemma perDeviceCount_single (d : Driver) (old : List Driver) (dv : Device)
    (h : ∀ d' ∈ old, d'.id ≠ d.id) :
    perDeviceCount d.id (d :: old) dv = if fieldsMatch d dv then 1 else 0 := by
  unfold perDeviceCount
  rw [List.filter_cons]
  have hold : old.filter (fun d' => d'.id == d.id && fieldsMatch d' dv) = [] := by
    rw [List.filter_eq_nil_iff]
    intro d' hd'
    simp [h d' hd']
  by_cases hf : fieldsMatch d dv = true
  · simp [hf, hold]
  · simp [hf, hold]

lemma sum_map_ite_one (p : Device → Bool) (devs : List Device) :
    (devs.map (fun dv => if p dv then 1 else 0)).sum = (devs.filter p).length := by
  induction devs with
  | nil => rfl
  | cons dv rest ih =>
    by_cases h : p dv = true
    · simp [h, ih, List.filter_cons]
      omega
    · simp [h, ih, List.filter_cons]

lemma foldArr_cons (it : HotplugList) (dv : Device) (rest : List Device) :
    foldArr it (dv :: rest) = foldArr (arrStep dv it) rest := rfl

lemma foldArr_driver (it : HotplugList) (devs : List Device) :
    (foldArr it devs).driver = it.driver := by
  induction devs generalizing it with
  | nil => rfl
  | cons dv rest ih => rw [foldArr_cons, ih, arrStep_driver]

lemma foldArr_length (it : HotplugList) (devs : List Device) :
    (foldArr it devs).device_list.length =
      it.device_list.length + acceptCount it.driver devs := by
  induction devs generalizing it with
  | nil => simp [foldArr, acceptCount]
  | cons dv rest ih =>
    rw [foldArr_cons, ih, arrStep_driver]
    unfold acceptCount
    rw [List.filter_cons]
    by_cases h : accepts it.driver dv = true
    · simp only [h, if_true]
      have : (arrStep dv it).device_list = dv :: it.device_list := by
        simp [arrStep, h]
      rw [this]
      simp [acceptCount]
      omega
    · simp only [h]
      have : (arrStep dv it).device_list = it.device_list := by
        simp [arrStep, h]
      rw [this]
      simp [acceptCount, h]

lemma enumLoop_registry_head (devs : List Device) (ctx : Context) (e : HotplugList)
    (tl : List HotplugList) (h : ctx.hotplug_drivers = e :: tl) :
    ∃ tl', (enumLoop devs ctx).1.hotplug_drivers = foldArr e devs :: tl' := by
  induction devs generalizing ctx e tl with
  | nil => exact ⟨tl, by simpa [enumLoop, foldArr] using h⟩
  | cons dv rest ih =>
    show ∃ tl',
      (enumLoop rest (usbi_hotplug_match ctx dv LIBUSB_HOTPLUG_EVENT_DEVICE_ARRIVED).1).1.hotplug_drivers
        = foldArr e (dv :: rest) :: tl'
    have h1 : (usbi_hotplug_match ctx dv LIBUSB_HOTPLUG_EVENT_DEVICE_ARRIVED).1.hotplug_drivers =
        arrStep dv e :: (matchLoop dv LIBUSB_HOTPLUG_EVENT_DEVICE_ARRIVED tl).1 := by
      show (matchLoop dv LIBUSB_HOTPLUG_EVENT_DEVICE_ARRIVED ctx.hotplug_drivers).1 = _
      rw [h, matchLoop_arrived_cons]
    rw [foldArr_cons]
    exact ih _ _ _ h1

lemma connect_mem_matchLoop (dv : Device) (l : List HotplugList) (dr : Driver)
    (hmem : dr ∈ l.map (fun it => it.driver)) (hf : fieldsMatch dr dv = true) :
    TraceEvent.connect dr.id dv ∈
      (matchLoop dv LIBUSB_HOTPLUG_EVENT_DEVICE_ARRIVED l).2 := by
  rw [matchLoop_arrived_snd, List.mem_flatten]
  rcases List.mem_map.mp hmem with ⟨it, hit, hdr⟩
  refine ⟨[TraceEvent.connect dr.id dv], ?_, List.mem_singleton_self _⟩
  exact List.mem_map.mpr ⟨it, hit, by rw [hdr, hf]; simp⟩

lemma connect_mem_enumLoop (devs : List Device) (ctx : Context) (dr : Driver) (dv : Device)
    (hdv : dv ∈ devs) (hmem : dr ∈ ctx.hotplug_drivers.map (fun it => it.driver))
    (hf : fieldsMatch dr dv = true) :
    TraceEvent.connect dr.id dv ∈ (enumLoop devs ctx).2 := by
  induction devs generalizing ctx with
  | nil => cases hdv
  | cons dv₀ rest ih =>
    show _ ∈ (usbi_hotplug_match ctx dv₀ LIBUSB_HOTPLUG_EVENT_DEVICE_ARRIVED).2
        ++ (enumLoop rest (usbi_hotplug_match ctx dv₀ LIBUSB_HOTPLUG_EVENT_DEVICE_ARRIVED).1).2
    rcases List.mem_cons.mp hdv with heq | hdv'
    · apply List.mem_append_left
      show _ ∈ TraceEvent.lock ::
        ((matchLoop dv₀ LIBUSB_HOTPLUG_EVENT_DEVICE_ARRIVED ctx.hotplug_drivers).2
          ++ [TraceEvent.unlock])
      apply List.mem_cons_of_mem
      apply List.mem_append_left
      subst heq
      exact connect_mem_matchLoop dv ctx.hotplug_drivers dr hmem hf
    · apply List.mem_append_right
      refine ih _ hdv' ?_
      rw [match_arrived_map_driver]
      exact hmem

/-- Claim C4 (amended) — a successful register with the ENUMERATE flag and a
driver pointer distinct from every registered one replays every
currently-known device through the whole registry, not just the new entry:
the new entry's `connect` (on_arrived) fires exactly once per device passing
its field tests (N calls) and its attached set ends with exactly the
accepted devices, but every previously registered entry whose field tests
pass a replayed device has its own `connect` invoked again during the same
register call. -/
theorem c4_register_enumerate_replay (ctx : Context) (d : Driver)
    (hcap : ctx.hasHotplug = true)
    (hval : invalidDriver d = false)
    (henum : (d.flags &&& LIBUSB_HOTPLUG_ENUMERATE != 0) = true)
    (hfresh : ∀ it ∈ ctx.hotplug_drivers, it.driver.id ≠ d.id) :
    (libusb_hotplug_register ctx (some d) true).1 = LIBUSB_SUCCESS ∧
    connectCount d.id (libusb_hotplug_register ctx (some d) true).2.2 =
      matchingCount d ctx.usb_devs ∧
    (∃ e tl, (libusb_hotplug_register ctx (some d) true).2.1.hotplug_drivers = e :: tl ∧
      e.driver = d ∧ e.device_list.length = acceptCount d ctx.usb_devs) ∧
    (∀ it ∈ ctx.hotplug_drivers, ∀ dv ∈ ctx.usb_devs,
      fieldsMatch it.driver dv = true →
        TraceEvent.connect it.driver.id dv ∈
          (libusb_hotplug_register ctx (some d) true).2.2) := by
  obtain ⟨cap, devs, registry, nid⟩ := ctx
  have hc : cap = true := hcap
  subst hc
  have hreg : libusb_hotplug_register ⟨true, devs, registry, nid⟩ (some d) true =
      (LIBUSB_SUCCESS,
       (enumLoop devs ⟨true, devs, ⟨nid, d, []⟩ :: registry, nid + 1⟩).1,
       TraceEvent.lock :: TraceEvent.unlock ::
         (enumLoop devs ⟨true, devs, ⟨nid, d, []⟩ :: registry, nid + 1⟩).2) := by
    simp [libusb_hotplug_register, hval, henum]
  rw [hreg]
  refine ⟨rfl, ?_, ?_, ?_⟩
  · show connectCount d.id
        (enumLoop devs ⟨true, devs, ⟨nid, d, []⟩ :: registry, nid + 1⟩).2 = _
    rw [connectCount_enumLoop]
    have hmap : ∀ dv ∈ devs,
        perDeviceCount d.id (d :: registry.map (fun it => it.driver)) dv =
          if fieldsMatch d dv then 1 else 0 := by
      intro dv _
      apply perDeviceCount_single
      intro d' hd'
      rcases List.mem_map.mp hd' with ⟨it, hit, hdr⟩
      rw [← hdr]
      exact hfresh it hit
    show (devs.map (perDeviceCount d.id (d :: registry.map (fun it => it.driver)))).sum = _
    rw [List.map_congr_left hmap, sum_map_ite_one]
    rfl
  · have h := enumLoop_registry_head devs ⟨true, devs, ⟨nid, d, []⟩ :: registry, nid + 1⟩
      ⟨nid, d, []⟩ registry rfl
    rcases h with ⟨tl', htl⟩
    refine ⟨foldArr ⟨nid, d, []⟩ devs, tl', htl, ?_, ?_⟩
    · rw [foldArr_driver]
    · rw [foldArr_length]
      show 0 + acceptCount d devs = acceptCount d devs
      omega
  · intro it hit dv hdv hf
    apply List.mem_cons_of_mem
    apply List.mem_cons_of_mem
    apply connect_mem_enumLoop devs _ it.driver dv hdv _ hf
    show it.driver ∈ (d :: registry.map (fun it => it.driver) : List Driver)
    exact List.mem_cons_of_mem d (List.mem_map.mpr ⟨it, hit, rfl⟩)

/-- A device matching `drvVid` below. -/
def devA : Device := ⟨1, 0x1234, 1, 0⟩

/-- A driver filtering on vendor 0x1234. -/
def drvVid : Driver := ⟨1, 0x1234, -1, -1, 0, 3, fun _ => 0⟩

/-- A registry entry for `drvVid` already holding `devA`. -/
def entVid : HotplugList := ⟨0, drvVid, [devA]⟩

/-- A context with one known device and one registered entry that already
saw it arrive. -/
def ctxReplay : Context := ⟨true, [devA], [entVid], 1⟩

/-- An all-wildcard driver with the ENUMERATE flag set. -/
def drvEnum : Driver := ⟨2, -1, -1, -1, 1, 3, fun _ => 0⟩

/-- Witness for C4 with one pre-registered entry and one known device. -/
theorem c4_register_enumerate_replay_witness :
    ctxReplay.hasHotplug = true ∧ invalidDriver drvEnum = false ∧
    (drvEnum.flags &&& LIBUSB_HOTPLUG_ENUMERATE != 0) = true ∧
    (∀ it ∈ ctxReplay.hotplug_drivers, it.driver.id ≠ drvEnum.id) ∧
    ((libusb_hotplug_register ctxReplay (some drvEnum) true).1 = LIBUSB_SUCCESS ∧
     connectCount drvEnum.id (libusb_hotplug_register ctxReplay (some drvEnum) true).2.2 =
       matchingCount drvEnum ctxReplay.usb_devs ∧
     (∃ e tl,
        (libusb_hotplug_register ctxReplay (some drvEnum) true).2.1.hotplug_drivers = e :: tl ∧
        e.driver = drvEnum ∧
        e.device_list.length = acceptCount drvEnum ctxReplay.usb_devs) ∧
     (∀ it ∈ ctxReplay.hotplug_drivers, ∀ dv ∈ ctxReplay.usb_devs,
        fieldsMatch it.driver dv = true →
          TraceEvent.connect it.driver.id dv ∈
            (libusb_hotplug_register ctxReplay (some drvEnum) true).2.2)) :=
  ⟨rfl, rfl, rfl, by decide,
   c4_register_enumerate_replay ctxReplay drvEnum rfl rfl rfl (by decide)⟩

/-- Counterexample to claim C4 as stated: registering `drvEnum` with the
ENUMERATE flag over one known device and one previously registered matching
entry fires the old entry's `connect` (on_arrived) as well — the replay is
not restricted to the new entry — and appends the device to the old entry's
set a second time.  N here is 1, yet two `connect` calls occur. -/
theorem c4_counterexample :
    (libusb_hotplug_register ctxReplay (some drvEnum) true).2.2 =
      [TraceEvent.lock, TraceEvent.unlock, TraceEvent.lock,
       TraceEvent.connect 2 devA, TraceEvent.connect 1 devA, TraceEvent.unlock] ∧
    connectCount 1 (libusb_hotplug_register ctxReplay (some drvEnum) true).2.2 = 1 ∧
    matchingCount drvEnum ctxReplay.usb_devs = 1 ∧
    (libusb_hotplug_register ctxReplay (some drvEnum) true).2.1.hotplug_drivers.map
        (fun it => it.device_list) = [[devA], [devA, devA]] :=
  ⟨rfl, rfl, rfl, rfl⟩

lemma setLast_driver (e : SpecEntry) (dev : Device) (k : LastEv) :
    (setLast e dev k).driver = e.driver := rfl

lemma entryRel_arrStep (dv : Device) (it : HotplugList) (e : SpecEntry)
    (h : EntryRel it e) :
    EntryRel (arrStep dv it) (setLast e dv LastEv.arrivedEv) := by
  obtain ⟨hdr, hmem⟩ := h
  refine ⟨by rw [arrStep_driver, setLast_driver, hdr], ?_⟩
  intro dv'
  rw [arrStep_driver]
  by_cases hdd : dv' = dv
  · subst hdd
    by_cases ha : accepts it.driver dv' = true
    · simp [arrStep, ha, setLast]
    · have hold := hmem dv'
      simp only [arrStep, ha, Bool.false_eq_true, if_false, setLast, if_pos rfl]
      rw [hold]
      simp [ha]
  · by_cases ha : accepts it.driver dv = true
    · simp only [arrStep, ha, if_true]
      show dv' ∈ dv :: it.device_list ↔ _
      rw [List.mem_cons]
      simp only [setLast, hdd, if_false]
      rw [hmem dv']
      simp [hdd]
    · simp only [arrStep, ha, Bool.false_eq_true, if_false, setLast]
      rw [hmem dv']
      simp [hdd]

lemma entryRel_leftStep (dv : Device) (it : HotplugList) (e : SpecEntry)
    (h : EntryRel it e) :
    EntryRel { it with device_list := it.device_list.filter (fun x => x != dv) }
      (setLast e dv LastEv.leftEv) := by
  obtain ⟨hdr, hmem⟩ := h
  refine ⟨by rw [setLast_driver, hdr], ?_⟩
  intro dv'
  show dv' ∈ it.device_list.filter (fun x => x != dv) ↔ _
  rw [List.mem_filter]
  by_cases hdd : dv' = dv
  · subst hdd
    simp [setLast]
  · simp only [setLast, hdd, if_false]
    rw [hmem dv']
    simp [hdd]

lemma disconnectDeviceLoop_fst (i : Nat) (dev : Device) (l : List Device) :
    (disconnectDeviceLoop i dev l).1 = l.filter (fun x => x != dev) := by
  induction l with
  | nil => rfl
  | cons dv rest ih =>
    by_cases h : dv = dev <;> simp [disconnectDeviceLoop, h, List.filter_cons, ih]

lemma matchLoop_left_cons (dv : Device) (it : HotplugList) (rest : List HotplugList) :
    matchLoop dv LIBUSB_HOTPLUG_EVENT_DEVICE_LEFT (it :: rest) =
      ({ it with device_list := it.device_list.filter (fun x => x != dv) }
          :: (matchLoop dv LIBUSB_HOTPLUG_EVENT_DEVICE_LEFT rest).1,
       (disconnectDeviceLoop it.driver.id dv it.device_list).2
          ++ (matchLoop dv LIBUSB_HOTPLUG_EVENT_DEVICE_LEFT rest).2) := by
  have hne : ¬(LIBUSB_HOTPLUG_EVENT_DEVICE_LEFT = LIBUSB_HOTPLUG_EVENT_DEVICE_ARRIVED) := by
    decide
  simp [matchLoop, hne, usbi_hotplug_disconnect_device, disconnectDeviceLoop_fst]

lemma forall₂_dispatch (dv : Device) (ev : Int) (l : List HotplugList)
    (s : List SpecEntry) (h : List.Forall₂ EntryRel l s) :
    List.Forall₂ EntryRel (matchLoop dv ev l).1 (specDispatch dv ev s) := by
  by_cases h1 : ev = LIBUSB_HOTPLUG_EVENT_DEVICE_ARRIVED
  · subst h1
    unfold specDispatch
    rw [if_pos rfl, matchLoop_arrived_fst]
    induction h with
    | nil => constructor
    | cons hae htl ih =>
      rw [List.map_cons, List.map_cons]
      exact List.Forall₂.cons (entryRel_arrStep dv _ _ hae) ih
  · by_cases h2 : ev = LIBUSB_HOTPLUG_EVENT_DEVICE_LEFT
    · subst h2
      unfold specDispatch
      rw [if_neg h1, if_pos rfl]
      induction h with
      | nil => constructor
      | @cons it e l' s' hae htl ih =>
        rw [matchLoop_left_cons, List.map_cons]
        exact List.Forall₂.cons (entryRel_leftStep dv _ _ hae) ih
    · unfold specDispatch
      rw [if_neg h1, if_neg h2, matchLoop_other dv ev h1 h2]
      exact h

lemma forall₂_dereg (d : Driver) (l : List HotplugList) (s : List SpecEntry)
    (h : List.Forall₂ EntryRel l s) :
    List.Forall₂ EntryRel (l.filter (fun it => it.driver.id != d.id))
      (s.filter (fun e => e.driver.id != d.id)) := by
  induction h with
  | nil => constructor
  | @cons it e l' s' hae htl ih =>
    have hdr : it.driver = e.driver := hae.1
    by_cases hid : (it.driver.id != d.id) = true
    · have hide : (e.driver.id != d.id) = true := by rw [← hdr]; exact hid
      simp only [List.filter_cons, hid, hide, if_true]
      exact List.Forall₂.cons hae ih
    · have hid' : (it.driver.id != d.id) = false := by
        rw [Bool.not_eq_true] at hid
        exact hid
      have hide : (e.driver.id != d.id) = false := by rw [← hdr]; exact hid'
      simp only [List.filter_cons, hid', hide, Bool.false_eq_true, if_false]
      exact ih

lemma forall₂_deregAll (l : List HotplugList) (s : List SpecEntry)
    (h : List.Forall₂ EntryRel l s) :
    List.Forall₂ EntryRel (l.map (fun it => { it with device_list := [] }))
      (s.map (fun e => { e with last := fun _ => LastEv.sweptEv })) := by
  induction h with
  | nil => constructor
  | @cons it e l' s' hae htl ih =>
    rw [List.map_cons, List.map_cons]
    refine List.Forall₂.cons ⟨hae.1, ?_⟩ ih
    intro dv
    simp

lemma rel_dispatch (h : Bool) (devs : List Device) (ctx : Context)
    (s : List SpecEntry) (hrel : Rel h devs ctx s) (dv : Device) (ev : Int) :
    Rel h devs (usbi_hotplug_match ctx dv ev).1 (specDispatch dv ev s) := by
  obtain ⟨hcap, hdevs, hf⟩ := hrel
  exact ⟨hcap, hdevs, forall₂_dispatch dv ev ctx.hotplug_drivers s hf⟩

lemma rel_enumLoop (h : Bool) (devs0 : List Device) (devs : List Device)
    (ctx : Context) (s : List SpecEntry) (hrel : Rel h devs0 ctx s) :
    Rel h devs0 (enumLoop devs ctx).1
      (devs.foldl (fun acc dv =>
        specDispatch dv LIBUSB_HOTPLUG_EVENT_DEVICE_ARRIVED acc) s) := by
  induction devs generalizing ctx s with
  | nil => exact hrel
  | cons dv rest ih =>
    exact ih _ _ (rel_dispatch h devs0 ctx s hrel dv LIBUSB_HOTPLUG_EVENT_DEVICE_ARRIVED)

lemma rel_step (h : Bool) (devs : List Device) (ctx : Context) (s : List SpecEntry)
    (hrel : Rel h devs ctx s) (op : Op) :
    Rel h devs (step ctx op).1 (specStep h devs s op) := by
  obtain ⟨hcap, hdevs, hf⟩ := hrel
  cases op with
  | dispatch dv ev => exact rel_dispatch h devs ctx s ⟨hcap, hdevs, hf⟩ dv ev
  | deregisterAll =>
    show Rel h devs (usbi_hotplug_deregister_all ctx).1 _
    unfold usbi_hotplug_deregister_all
    rw [deregAllLoop_eq]
    exact ⟨hcap, hdevs, forall₂_deregAll ctx.hotplug_drivers s hf⟩
  | deregister d =>
    show Rel h devs (libusb_hotplug_deregister ctx d).1
      (if !h then s else s.filter (fun e => e.driver.id != d.id))
    cases hb : h with
    | false =>
      rw [hb] at hcap
      have hcode : (libusb_hotplug_deregister ctx d).1 = ctx := by
        unfold libusb_hotplug_deregister
        rw [hcap]
        rfl
      rw [hcode]
      exact ⟨hcap, hdevs, hf⟩
    | true =>
      rw [hb] at hcap
      have hcode : (libusb_hotplug_deregister ctx d).1 =
          Context.mk ctx.hasHotplug ctx.usb_devs
            (ctx.hotplug_drivers.filter (fun it => it.driver.id != d.id))
            ctx.nextNodeId := by
        simp [libusb_hotplug_deregister, hcap, deregLoop_eq]
      rw [hcode]
      exact ⟨hcap, hdevs, forall₂_dereg d ctx.hotplug_drivers s hf⟩
  | register d? mOk =>
    show Rel h devs (libusb_hotplug_register ctx d? mOk).2.1 (specRegister d? mOk h devs s)
    cases hb : h with
    | false =>
      rw [hb] at hcap
      have hcode : (libusb_hotplug_register ctx d? mOk).2.1 = ctx := by
        unfold libusb_hotplug_register
        rw [hcap]
        rfl
      have hspec : specRegister d? mOk false devs s = s := by
        simp [specRegister]
      rw [hcode, hspec]
      exact ⟨hcap, hdevs, hf⟩
    | true =>
      rw [hb] at hcap
      cases d? with
      | none =>
        have hcode : (libusb_hotplug_register ctx none mOk).2.1 = ctx := by
          simp [libusb_hotplug_register, hcap]
        have hspec : specRegister none mOk true devs s = s := by
          simp [specRegister]
        rw [hcode, hspec]
        exact ⟨hcap, hdevs, hf⟩
      | some d =>
        cases hv : invalidDriver d with
        | true =>
          have hcode : (libusb_hotplug_register ctx (some d) mOk).2.1 = ctx := by
            simp [libusb_hotplug_register, hcap, hv]
          have hspec : specRegister (some d) mOk true devs s = s := by
            simp [specRegister, hv]
          rw [hcode, hspec]
          exact ⟨hcap, hdevs, hf⟩
        | false =>
          cases mOk with
          | false =>
            have hcode : (libusb_hotplug_register ctx (some d) false).2.1 = ctx := by
              simp [libusb_hotplug_register, hcap, hv]
            have hspec : specRegister (some d) false true devs s = s := by
              simp [specRegister, hv]
            rw [hcode, hspec]
            exact ⟨hcap, hdevs, hf⟩
          | true =>
            have hnode : List.Forall₂ EntryRel
                ((⟨ctx.nextNodeId, d, []⟩ : HotplugList) :: ctx.hotplug_drivers)
                (SpecEntry.mk d (fun _ => LastEv.noEv) :: s) :=
              List.Forall₂.cons ⟨rfl, by intro dv; simp⟩ hf
            cases he : (d.flags &&& LIBUSB_HOTPLUG_ENUMERATE != 0) with
            | false =>
              have hcode : (libusb_hotplug_register ctx (some d) true).2.1 =
                  Context.mk ctx.hasHotplug ctx.usb_devs
                    (⟨ctx.nextNodeId, d, []⟩ :: ctx.hotplug_drivers)
                    (ctx.nextNodeId + 1) := by
                simp [libusb_hotplug_register, hcap, hv, he]
              have hspec : specRegister (some d) true true devs s =
                  SpecEntry.mk d (fun _ => LastEv.noEv) :: s := by
                simp [specRegister, hv, he]
              rw [hcode, hspec]
              exact ⟨hcap, hdevs, hnode⟩
            | true =>
              have hcode : (libusb_hotplug_register ctx (some d) true).2.1 =
                  (enumLoop devs
                    (Context.mk ctx.hasHotplug devs
                      (⟨ctx.nextNodeId, d, []⟩ :: ctx.hotplug_drivers)
                      (ctx.nextNodeId + 1))).1 := by
                simp [libusb_hotplug_register, hcap, hv, he, hdevs]
              have hspec : specRegister (some d) true true devs s =
                  devs.foldl (fun acc dv =>
                    specDispatch dv LIBUSB_HOTPLUG_EVENT_DEVICE_ARRIVED acc)
                    (SpecEntry.mk d (fun _ => LastEv.noEv) :: s) := by
                simp [specRegister, hv, he]
              rw [hcode, hspec]
              exact rel_enumLoop true devs devs
                (Context.mk ctx.hasHotplug devs
                  (⟨ctx.nextNodeId, d, []⟩ :: ctx.hotplug_drivers)
                  (ctx.nextNodeId + 1))
                (SpecEntry.mk d (fun _ => LastEv.noEv) :: s)
                ⟨hcap, rfl, hnode⟩

lemma rel_run (h : Bool) (devs : List Device) (ops : List Op) (ctx : Context)
    (s : List SpecEntry) (hrel : Rel h devs ctx s) :
    Rel h devs (run ctx ops).1 (specRun h devs s ops) := by
  induction ops generalizing ctx s with
  | nil => exact hrel
  | cons op ops ih => exact ih _ _ (rel_step h devs ctx s hrel op)

/-- Claim C3 (amended) — for every sequence of operations started from an
empty registry, every entry of the reachable code state corresponds, in
order, to an abstract entry recording per device the most recent of the
events concerning it (ARRIVED dispatch, LEFT dispatch, deregister-all
sweep) since the entry's creation, and a device belongs to the entry's
attached set if and only if that most recent event is an ARRIVED dispatch
that matched and was accepted.  A deregister-all sweep empties the attached
sets while leaving the entries registered, so it, too, clears membership;
destruction by deregister removes the entry on both sides. -/
theorem c3_attached_set_invariant (hasH : Bool) (devs : List Device)
    (ops : List Op) :
    Rel hasH devs (run (initContext hasH devs) ops).1
      (specRun hasH devs [] ops) :=
  rel_run hasH devs ops (initContext hasH devs) [] ⟨rfl, rfl, List.Forall₂.nil⟩

/-- The operation sequence of the C3 counterexample: register, one accepted
ARRIVED dispatch, then a deregister-all sweep. -/
def opsC3 : List Op :=
  [Op.register (some drvA) true,
   Op.dispatch devZero LIBUSB_HOTPLUG_EVENT_DEVICE_ARRIVED,
   Op.deregisterAll]

/-- Counterexample to claim C3 as stated: after register, an accepted
ARRIVED dispatch of the device, and a deregister-all sweep, the entry is
still present in the registry (it was not destroyed) and the most recent
dispatch of the device against it — per the claim's own event bookkeeping
`claimRun`, which admits only LEFT dispatches and entry destruction as
clearing events — is an accepted ARRIVED; yet the device is not in the
entry's attached set. -/
theorem c3_counterexample :
    ((run (initContext true []) opsC3).1.hotplug_drivers.map
        (fun it => it.driver.id)) = [1] ∧
    ((run (initContext true []) opsC3).1.hotplug_drivers.map
        (fun it => decide (devZero ∈ it.device_list))) = [false] ∧
    ((claimRun true [] [] opsC3).map (fun e => e.driver.id)) = [1] ∧
    ((claimRun true [] [] opsC3).map (fun e => e.last devZero)) =
      [LastEv.arrivedEv] ∧
    accepts drvA devZero = true :=
  ⟨rfl, rfl, rfl, rfl, rfl⟩

end Hotplug
